import Mathlib

/-!
Verification of the ftl2 HTTP framework core against its specification.

This file gives a shallow embedding, in Lean 4, of the parts of the source
that the checked properties are about:

* the GCRA rate limiter (`src/layers/rate_limit/gcra.rs`);
* the rate-limit denial response (`IntoResponse for RateLimitError`);
* the limited body (`src/body/limited.rs`) and `Body::limit`;
* the request-body-limit layer (`src/layers/limit_req_body.rs`);
* the normalize layer (`src/layers/normalize.rs`);
* the deferred-encoding layer (`src/layers/deferred.rs`);
* response-part composition (`src/response.rs`);
* the router lookup (`src/router.rs`).

Machine integers (`u64`) are modelled as `Nat` with an explicit reduction
modulo `2 ^ 64` wherever the source can overflow; `usize` subtraction via
`checked_sub` is modelled with an explicit comparison. External black boxes
(the `matchit` radix trie, `hyper` incoming bodies, streams) are modelled as
abstract lookup functions or by their observable size hints and frame
sequences.
-/

namespace Ftl2

/-! ## Headers, extensions and response parts

`http::HeaderMap` is an ordered multimap of header names to values; the
operations used by the code under verification are `get`/`contains_key`
(first match), `insert` (replace all values for the name) and `extend`
(for each distinct incoming name, the first incoming entry replaces all
existing values and later duplicates append). Names reaching these calls are
already lowercased by the `http` crate, so plain string equality is used.
`http::Extensions` is a type-keyed map; type ids are modelled as `Nat`. -/

abbrev HeaderMapM := List (String × String)

/-- `HeaderMap::get`: the first value stored under the name. -/
def hdrLookup : HeaderMapM → String → Option String
  | [], _ => none
  | p :: t, k => if p.1 = k then some p.2 else hdrLookup t k

def hdrContains (hs : HeaderMapM) (k : String) : Bool :=
  hs.any (fun p => p.1 = k)

/-- `HeaderMap::insert`: drop every existing value for the name, add the new one. -/
def hdrInsert (hs : HeaderMapM) (k v : String) : HeaderMapM :=
  hs.filter (fun p => p.1 ≠ k) ++ [(k, v)]

/-- `HeaderMap::extend`: the first incoming entry for a name replaces the
existing values; subsequent incoming entries for the same name append. -/
def hdrExtend (hs : HeaderMapM) (new : List (String × String)) : HeaderMapM :=
  go hs new []
where
  go (hs : HeaderMapM) (new : List (String × String)) (seen : List String) : HeaderMapM :=
    match new with
    | [] => hs
    | (k, v) :: rest =>
      if k ∈ seen then go (hs ++ [(k, v)]) rest seen
      else go (hdrInsert hs k v) rest (k :: seen)

abbrev ExtensionsM := List (Nat × Nat)

def extInsert (es : ExtensionsM) (k v : Nat) : ExtensionsM :=
  es.filter (fun p => p.1 ≠ k) ++ [(k, v)]

def extExtend (es : ExtensionsM) (new : List (Nat × Nat)) : ExtensionsM :=
  new.foldl (fun acc p => extInsert acc p.1 p.2) es

/-- The head of an `http::Response`: status, version, headers, extensions.
Status codes and versions are modelled as `Nat`. -/
structure PartsM where
  status : Nat
  version : Nat
  headers : HeaderMapM
  extensions : ExtensionsM
deriving Repr, DecidableEq

/-- `Response::new(body)` starts from default parts: status 200. -/
def PartsM.default : PartsM := { status := 200, version := 11, headers := [], extensions := [] }

/-- `StatusCode::is_success`: 2xx. -/
def isSuccess (status : Nat) : Bool := 200 ≤ status && status < 300

/-! ## GCRA rate limiter (`src/layers/rate_limit/gcra.rs`)

`Quota { tau, t }` holds two `u64` nanosecond quantities; the stored per-key
state is a single `u64` (an `AtomicU64`, accessed here sequentially). `u64`
addition is reduced modulo `2 ^ 64`; `u64::saturating_sub` is `Nat`
subtraction. -/

def U64 : Nat := 2 ^ 64

/-- `Quota`: `tau` is the burst window `t * burst`, `t` the emission interval,
both in nanoseconds. -/
structure Quota where
  tau : Nat
  t : Nat
deriving Repr, DecidableEq

/-- `Quota::new(emission_interval, burst)`. -/
def Quota.new (emissionInterval burst : Nat) : Quota :=
  { t := emissionInterval, tau := (emissionInterval * burst) % U64 }

/-- `Gcra::decide`: `next = prev.saturating_sub(tau)`; deny with wait
`next - now` when `now < next`, otherwise admit with new state
`now.max(prev) + t`. -/
def gcraDecide (prev now : Nat) (q : Quota) : Except Nat Nat :=
  let next := prev - q.tau
  if now < next then Except.error (next - now)
  else Except.ok ((max now prev + q.t) % U64)

/-- `Gcra::first`: state for the first request, `now + t + t`. -/
def gcraFirst (q : Quota) (now : Nat) : Nat := (now + q.t + q.t) % U64

/-- `Gcra::req` run sequentially (the CAS succeeds): returns the updated
stored value and, on denial, the wait in nanoseconds, leaving the value as it
was. -/
def gcraReq (st : Nat) (q : Quota) (now : Nat) : Nat × Option Nat :=
  match gcraDecide st now q with
  | Except.ok next => (next, none)
  | Except.error wait => (st, some wait)

/-- `RateLimiter::req` for one key, sequentially: `none` state means the key
is absent; the first request inserts `Gcra::first` and is admitted, later
requests go through `Gcra::req`. Returns the new state and the admission
verdict. -/
def rlStep (st : Option Nat) (q : Quota) (now : Nat) : Option Nat × Bool :=
  match st with
  | none => (some (gcraFirst q now), true)
  | some prev =>
    match gcraReq prev q now with
    | (next, none) => (some next, true)
    | (next, some _) => (some next, false)

/-- State of one key after `k` same-instant requests starting from absence. -/
def rlState (q : Quota) (now : Nat) : Nat → Option Nat
  | 0 => none
  | k + 1 => (rlStep (rlState q now k) q now).1

/-- Whether the `k`-th request (1-indexed) of a same-instant sequence from a
cold key is admitted. -/
def rlAdmitted (q : Quota) (now : Nat) (k : Nat) : Bool :=
  (rlStep (rlState q now (k - 1)) q now).2

/-! ## Rate-limit denial response (`IntoResponse for RateLimitError`)

`RateLimitError(w)` renders a 429 whose `ratelimit-reset`, `x-ratelimit-reset`
and `retry-after` headers all carry `max(Duration::from_nanos(w).as_secs(), 1)`
(`as_secs` truncates: integer division by 10^9) and whose
`ratelimit-remaining` is `0`. -/

def nsPerSec : Nat := 1000000000

/-- The head of the response built by `RateLimitError::into_response` for a
wait of `w` nanoseconds. -/
def rateLimitErrorResponse (w : Nat) : PartsM :=
  let reset := max (w / nsPerSec) 1
  let v := Nat.repr reset
  let hs := hdrInsert [] "ratelimit-reset" v
  let hs := hdrInsert hs "x-ratelimit-reset" v
  let hs := hdrInsert hs "retry-after" v
  let hs := hdrInsert hs "ratelimit-remaining" "0"
  { PartsM.default with status := 429, headers := hs }

/-! ## Body model (`src/body/mod.rs`)

`BodyInner` is a sum type. The hot variants kept here are `Empty`, `Full`
(a contiguous byte buffer, whose only observables used by the verified code
are its bytes), `Limited` (a budget over a boxed inner body), `Deferred`
(an unencoded value, observable only through
`Deferred::into_response(encoding)`, modelled as a function from the encoding
to a response head and body) and `Arbitrary`. `Incoming`, `Channel`, `Stream`
and `Dyn` are connection- or stream-backed black boxes whose only observable
used by the verified code is their size hint; they are collapsed into a
single `streaming` constructor carrying that hint. Bytes are `Nat`s. -/

inductive Encoding where
  | json
  | cbor
deriving Repr, DecidableEq

inductive BodyM where
  | empty : BodyM
  | full (bs : List Nat) : BodyM
  | streaming (lower : Nat) (upper : Option Nat) : BodyM
  | limited (remaining : Nat) (inner : BodyM) : BodyM
  | deferred (encode : Encoding → PartsM × BodyM) : BodyM
  | arbitrary : BodyM

/-- A size hint: lower and optional upper bound, as in `http_body::SizeHint`. -/
structure SizeHintM where
  lower : Nat
  upper : Option Nat
deriving Repr, DecidableEq

/-- `SizeHint::new()` / `SizeHint::default()`. -/
def SizeHintM.default : SizeHintM := { lower := 0, upper := none }

/-- `Limited::size_hint` (`src/body/limited.rs`): start from the inner hint;
if its lower bound already reaches `remaining`, the hint becomes exactly
`remaining`; otherwise the upper bound is clamped to `remaining` (meeting any
existing upper bound at their minimum). -/
def limitedSizeHint (remaining : Nat) (inner : SizeHintM) : SizeHintM :=
  if inner.lower ≥ remaining then { lower := remaining, upper := some remaining }
  else match inner.upper with
    | some m => { inner with upper := some (min remaining m) }
    | none => { inner with upper := some remaining }

/-- `Body::size_hint` by variant (`impl HttpBody for BodyInner`): `Empty`,
`Deferred` and `Arbitrary` report the default hint; `Full` reports its exact
length; the opaque variants report their own hint. -/
def BodyM.sizeHint : BodyM → SizeHintM
  | BodyM.empty => SizeHintM.default
  | BodyM.full bs => { lower := bs.length, upper := some bs.length }
  | BodyM.streaming lo up => { lower := lo, upper := up }
  | BodyM.limited r inner => limitedSizeHint r inner.sizeHint
  | BodyM.deferred _ => SizeHintM.default
  | BodyM.arbitrary => SizeHintM.default

/-- `Body::original_size_hint`: the inner hint for a `Limited` body, the
body's own hint otherwise. -/
def BodyM.originalSizeHint : BodyM → SizeHintM
  | BodyM.limited _ inner => inner.sizeHint
  | b => b.sizeHint

/-- The subkind predicates on a `hyper::Error` that
`IntoResponse for BodyError` distinguishes. -/
inductive HyperErrorKind where
  | parseTooLarge
  | aborted
  | timeout
  | parse
  | other
deriving Repr, DecidableEq

/-- The error taxonomy of `BodyError` (payloads of the external variants
reduced to what the verified code observes). -/
inductive BodyErrorM where
  | hyperError (k : HyperErrorKind)
  | io
  | streamAborted
  | lengthLimitError
  | generic
  | deferredNotConverted
  | arbitraryBodyPolled
deriving Repr, DecidableEq

/-- The status code assigned by `IntoResponse for BodyError`
(`src/body/mod.rs`). -/
def bodyErrorStatus : BodyErrorM → Nat
  | BodyErrorM.generic => 500
  | BodyErrorM.io => 500
  | BodyErrorM.streamAborted => 422
  | BodyErrorM.lengthLimitError => 413
  | BodyErrorM.hyperError HyperErrorKind.parseTooLarge => 413
  | BodyErrorM.hyperError HyperErrorKind.aborted => 422
  | BodyErrorM.hyperError HyperErrorKind.timeout => 504
  | BodyErrorM.hyperError HyperErrorKind.parse => 400
  | BodyErrorM.hyperError HyperErrorKind.other => 500
  | BodyErrorM.deferredNotConverted => 500
  | BodyErrorM.arbitraryBodyPolled => 500

/-- `Body::limit(limit)`: an `Empty` body is returned unchanged; a `Limited`
body keeps its wrapper with budget `min(remaining, limit)`; `Arbitrary` and
`Deferred` bodies are errors; anything else is wrapped in `Limited` with
budget `limit`. -/
def BodyM.limit (b : BodyM) (lim : Nat) : Except BodyErrorM BodyM :=
  match b with
  | BodyM.empty => Except.ok BodyM.empty
  | BodyM.limited r inner => Except.ok (BodyM.limited (min r lim) inner)
  | BodyM.arbitrary => Except.error BodyErrorM.arbitraryBodyPolled
  | BodyM.deferred _ => Except.error BodyErrorM.deferredNotConverted
  | b => Except.ok (BodyM.limited lim b)

/-! ## Limited body polling (`src/body/limited.rs`)

A frame is either a data frame (a byte buffer) or a trailers frame. The inner
body is abstracted by the sequence of poll results it produces; `Limited`
maps each one through its budget. -/

inductive FrameM where
  | data (bs : List Nat) : FrameM
  | trailers : FrameM
deriving Repr, DecidableEq

/-- One `Limited::poll_frame` step on an inner poll result, given the current
remaining budget: inner errors pass through; a data frame of `n` bytes is
yielded with the budget decreased by `n` when `n` fits
(`remaining.checked_sub(n)`), and otherwise becomes a `LengthLimitError` with
the budget clamped to 0; trailers pass through with the budget unchanged. -/
def limitedStep (remaining : Nat) (x : Except BodyErrorM FrameM) :
    Nat × Except BodyErrorM FrameM :=
  match x with
  | Except.error e => (remaining, Except.error e)
  | Except.ok (FrameM.data bs) =>
    if bs.length ≤ remaining then (remaining - bs.length, Except.ok (FrameM.data bs))
    else (0, Except.error BodyErrorM.lengthLimitError)
  | Except.ok FrameM.trailers => (remaining, Except.ok FrameM.trailers)

/-- Run `Limited` over a whole sequence of inner poll results, returning the
final budget and the outputs in order. -/
def limitedRun (remaining : Nat) : List (Except BodyErrorM FrameM) →
    Nat × List (Except BodyErrorM FrameM)
  | [] => (remaining, [])
  | x :: xs =>
    let (r, y) := limitedStep remaining x
    let (rf, ys) := limitedRun r xs
    (rf, y :: ys)

/-- Total number of data bytes in the yielded (successful data) frames. -/
def dataBytesYielded : List (Except BodyErrorM FrameM) → Nat
  | [] => 0
  | Except.ok (FrameM.data bs) :: xs => bs.length + dataBytesYielded xs
  | _ :: xs => dataBytesYielded xs

/-! ## Request-body-limit layer (`src/layers/limit_req_body.rs`)

`LimitReqBody::call` splits the request, rejects with
`BodyError::LengthLimitError` when `reject` is set and the body's original
lower size-hint bound exceeds the limit, and otherwise applies `Body::limit`,
passing the limited body to the inner service. The observable dispatch is
captured by an outcome sum. -/

inductive LimitOutcome where
  /-- Early rejection: `LengthLimitError` before the inner service runs. -/
  | rejected : LimitOutcome
  /-- `Body::limit` itself failed with the given error; inner never runs. -/
  | bodyError (e : BodyErrorM) : LimitOutcome
  /-- The inner service is called with this body. -/
  | innerCalled (b : BodyM) : LimitOutcome

/-- `LimitReqBody::call` on a request body. -/
def limitReqBodyCall (limit : Nat) (reject : Bool) (body : BodyM) : LimitOutcome :=
  if reject && decide (body.originalSizeHint.lower > limit) then LimitOutcome.rejected
  else match body.limit limit with
    | Except.ok b => LimitOutcome.innerCalled b
    | Except.error e => LimitOutcome.bodyError e

/-- Whether a body is the `Limited` variant. -/
def BodyM.isLimitedB : BodyM → Bool
  | BodyM.limited _ _ => true
  | _ => false

/-- Whether a body is the `Deferred` variant. -/
def BodyM.isDeferredB : BodyM → Bool
  | BodyM.deferred _ => true
  | _ => false

/-! ## Normalize layer (`src/layers/normalize.rs`)

Methods are modelled as strings. `Method::from_bytes` accepts a non-empty
byte string of HTTP token characters; the token character set of the `http`
crate is given below by byte value. The response is a head plus a body; the
body's size hint is the response's size hint (`http_body` implements `Body`
for `http::Response` by delegation). -/

def isMethodChar (c : Char) : Bool :=
  let n := c.toNat
  (48 ≤ n && n ≤ 57) || (65 ≤ n && n ≤ 90) || (97 ≤ n && n ≤ 122) ||
    n ∈ [33, 35, 36, 37, 38, 39, 42, 43, 45, 46, 94, 95, 96, 124, 126]

/-- `Method::from_bytes` succeeds on a non-empty token string. -/
def validMethod (s : String) : Bool := !s.isEmpty && s.data.all isMethodChar

/-- The `X-HTTP-Method-Override` rewrite at the top of `Normalize::call`. -/
def effectiveMethod (reqHeaders : HeaderMapM) (method : String) : String :=
  match hdrLookup reqHeaders "x-http-method-override" with
  | some v => if validMethod v then v else method
  | none => method

inductive MiniMethod where
  | head
  | connect
  | other
deriving Repr, DecidableEq

def miniMethodOf (m : String) : MiniMethod :=
  if m = "HEAD" then MiniMethod.head
  else if m = "CONNECT" then MiniMethod.connect
  else MiniMethod.other

/-- `SizeHint::exact`: the size when the bounds agree. -/
def SizeHintM.exact (h : SizeHintM) : Option Nat :=
  if h.upper = some h.lower then some h.lower else none

/-- `set_content_length` (`src/layers/normalize.rs`): do nothing when a
`Content-Length` header is present; otherwise insert the exact size when the
hint is exact (the size-0 fast path produces the same string "0"). -/
def setContentLength (hint : SizeHintM) (hs : HeaderMapM) : HeaderMapM :=
  if hdrContains hs "content-length" then hs
  else match hint.exact with
    | some size => hdrInsert hs "content-length" (Nat.repr size)
    | none => hs

/-- The response mapping of `Normalize::call`, given the request headers and
method and the inner service's response (already converted by
`into_response`). -/
def normalizeCall (reqHeaders : HeaderMapM) (reqMethod : String)
    (res : PartsM × BodyM) : PartsM × BodyM :=
  let method := miniMethodOf (effectiveMethod reqHeaders reqMethod)
  let (parts, body) := res
  let (parts, body) :=
    if method = MiniMethod.connect && isSuccess parts.status then
      if hdrContains parts.headers "content-length" ||
          hdrContains parts.headers "transfer-encoding" ||
          decide (body.sizeHint.lower ≠ 0)
      then (parts, BodyM.empty)
      else (parts, body)
    else ({ parts with headers := setContentLength body.sizeHint parts.headers }, body)
  let (parts, body) :=
    if method = MiniMethod.head then (parts, BodyM.empty) else (parts, body)
  ({ parts with headers := hdrInsert parts.headers "x-clacks-overhead" "GNU Terry Pratchett" },
    body)

/-! ## Deferred-encoding layer (`src/layers/deferred.rs`) -/

/-- Rust `str::split(sep)` on a character list: splitting an empty input
yields one empty piece, and every separator starts a new piece. -/
def splitListChar (sep : Char) : List Char → List (List Char)
  | [] => [[]]
  | c :: cs =>
    let r := splitListChar sep cs
    if c = sep then [] :: r
    else match r with
      | [] => [[c]]
      | h :: t => (c :: h) :: t

/-- Rust `str::split(sep)` for a character separator. -/
def splitChar (sep : Char) (s : String) : List String :=
  (splitListChar sep s.data).map String.mk

/-- Rust `str::split_once(sep)` on a character list: split at the first
occurrence of the separator, or `none` when it does not occur. -/
def splitOnceList (sep : Char) : List Char → Option (List Char × List Char)
  | [] => none
  | c :: cs =>
    if c = sep then some ([], cs)
    else match splitOnceList sep cs with
      | some (a, b) => some (c :: a, b)
      | none => none

/-- Rust `str::split_once(sep)` for a character separator. -/
def splitOnce (s : String) (sep : Char) : Option (String × String) :=
  match splitOnceList sep s.data with
  | some (a, b) => some (String.mk a, String.mk b)
  | none => none

def encodingOfValue (v : String) : Option Encoding :=
  if v = "json" then some Encoding.json
  else if v = "cbor" then some Encoding.cbor
  else none

/-- The scan loop of `DeferredEncodingService::call` over the `&`-separated
query pairs: the first pair whose key is a configured field and whose value
is `json` or `cbor` decides; pairs without `=`, with other keys, or with
other values are skipped. -/
def scanPairs (fields : List String) (dflt : Encoding) : List String → Encoding
  | [] => dflt
  | p :: rest =>
    match splitOnce p '=' with
    | some (k, v) =>
      if k ∈ fields then
        match encodingOfValue v with
        | some e => e
        | none => scanPairs fields dflt rest
      else scanPairs fields dflt rest
    | none => scanPairs fields dflt rest

/-- Encoding choice for a request: the configured default when there is no
query, otherwise the scan over `query.split('&')`. -/
def chooseEncoding (fields : List String) (dflt : Encoding) (query : Option String) : Encoding :=
  match query with
  | none => dflt
  | some q => scanPairs fields dflt (splitChar '&' q)

/-- The response mapping of `DeferredEncodingService::call`: a `Deferred`
body is encoded with the chosen encoding; a non-successful replacement's head
replaces the original head wholesale, a successful replacement merges only
headers and extensions; any other body passes through unmodified. -/
def deferredEncodingCall (fields : List String) (dflt : Encoding) (query : Option String)
    (res : PartsM × BodyM) : PartsM × BodyM :=
  let (parts, body) := res
  match body with
  | BodyM.deferred encode =>
    let enc := chooseEncoding fields dflt query
    let np := encode enc
    if !isSuccess np.1.status then np
    else
      ({ parts with
          headers := hdrExtend parts.headers np.1.headers,
          extensions := extExtend parts.extensions np.1.extensions },
        np.2)
  | b => (parts, b)

/-! ## Response part composition (`src/response.rs`) -/

/-- `impl IntoResponseParts for StatusCode`: the status is only set while it
is still the default 200. -/
def statusIntoResponseParts (s : Nat) (parts : PartsM) : PartsM :=
  if parts.status = 200 then { parts with status := s } else parts

/-! ## Router (`src/router.rs`)

The ten per-method `matchit` tries are external pattern-matching radix trees;
each is modelled as an abstract lookup function from a path to an optional
route id. The dense id-to-route map is likewise a function. A route carries
its pattern string and a service, abstract here in `σ`. -/

structure RouteM (σ : Type) where
  path : String
  service : σ
deriving Repr, DecidableEq

structure RouterM (σ : Type) where
  r_get : String → Option Nat
  r_post : String → Option Nat
  r_put : String → Option Nat
  r_delete : String → Option Nat
  r_patch : String → Option Nat
  r_head : String → Option Nat
  r_connect : String → Option Nat
  r_options : String → Option Nat
  r_trace : String → Option Nat
  r_any : String → Option Nat
  routes : Nat → Option (RouteM σ)
  trim_trailing_slash : Bool

/-- The trie-selection match at the top of `Router::match_route`, together
with the `any` flag it sets. -/
def selectTrie {σ : Type} (r : RouterM σ) (method : String) : (String → Option Nat) × Bool :=
  match method with
  | "GET" => (r.r_get, false)
  | "POST" => (r.r_post, false)
  | "PUT" => (r.r_put, false)
  | "DELETE" => (r.r_delete, false)
  | "PATCH" => (r.r_patch, false)
  | "HEAD" => (r.r_head, false)
  | "CONNECT" => (r.r_connect, false)
  | "OPTIONS" => (r.r_options, false)
  | "TRACE" => (r.r_trace, false)
  | _ => (r.r_any, true)

def isExplicitMethod (method : String) : Bool :=
  method ∈ ["GET", "POST", "PUT", "DELETE", "PATCH", "HEAD", "CONNECT", "OPTIONS", "TRACE"]

/-- `str::trim_end_matches('/')`: drop every trailing slash. -/
def trimTrailingSlashes (s : String) : String :=
  String.mk ((s.data.reverse.dropWhile (fun c => c = '/')).reverse)

/-- `Router::match_route`: select the trie (ANY for a non-explicit method),
optionally trim trailing slashes, look the path up, retry in ANY on a miss
from an explicit method's trie, then resolve the id; a missing id entry or a
total miss yields the fallback entry under id 0 (which may itself be
absent). -/
def match_route {σ : Type} (r : RouterM σ) (method path : String) :
    Except (Option (RouteM σ)) (RouteM σ) :=
  let tr := selectTrie r method
  let path := if r.trim_trailing_slash then trimTrailingSlashes path else path
  let maybeMatch : Option Nat :=
    match tr.1 path with
    | some id => some id
    | none => if !tr.2 then r.r_any path else none
  match maybeMatch with
  | some id =>
    match r.routes id with
    | some route => Except.ok route
    | none => Except.error (r.routes 0)
  | none => Except.error (r.routes 0)

inductive RouterCallResult (σ : Type) where
  /-- The request is dispatched to this route's service. -/
  | route (rt : RouteM σ) : RouterCallResult σ
  /-- `Error::NotFound`, rendered as a 404. -/
  | notFound : RouterCallResult σ
deriving Repr, DecidableEq

/-- `Router::call_opt` composed with the `Service` impl's `call`: a match or
the fallback dispatches to that route, and an absent fallback becomes
`Error::NotFound`. -/
def routerCall {σ : Type} (r : RouterM σ) (method path : String) : RouterCallResult σ :=
  match match_route r method path with
  | Except.ok rt => RouterCallResult.route rt
  | Except.error (some fb) => RouterCallResult.route fb
  | Except.error none => RouterCallResult.notFound

/-- How the claim resolves a total miss: fallback when present, 404 when
not. -/
def fallbackResult {σ : Type} (r : RouterM σ) : RouterCallResult σ :=
  match r.routes 0 with
  | some fb => RouterCallResult.route fb
  | none => RouterCallResult.notFound

/-! ## Helper lemmas on the header map model -/

theorem hdrLookup_hdrInsert (hs : HeaderMapM) (k v : String) :
    hdrLookup (hdrInsert hs k v) k = some v := by
  induction hs with
  | nil => simp [hdrInsert, hdrLookup]
  | cons p t ih =>
    by_cases h : p.1 = k
    · simpa [hdrInsert, hdrLookup, h] using ih
    · simpa [hdrInsert, hdrLookup, h] using ih

theorem hdrLookup_hdrInsert_ne (hs : HeaderMapM) (k k' v : String) (h : k ≠ k') :
    hdrLookup (hdrInsert hs k' v) k = hdrLookup hs k := by
  induction hs with
  | nil =>
    have hne : ¬k' = k := fun hk => h hk.symm
    simp [hdrInsert, hdrLookup, hne]
  | cons p t ih =>
    have hne : ¬k' = k := fun e => h e.symm
    by_cases hp : p.1 = k'
    · have hpk : ¬p.1 = k := fun hk => h (hk ▸ hp)
      simpa [hdrInsert, hdrLookup, List.filter_cons, hp, hpk, hne] using ih
    · by_cases hk : p.1 = k
      · have hkk : ¬k = k' := fun e => hp (hk.trans e)
        simp [hdrInsert, hdrLookup, List.filter_cons, hp, hk, hkk]
      · simpa [hdrInsert, hdrLookup, List.filter_cons, hp, hk] using ih

/-! ## Claim C9 -/

/-- Claim C9: applying a `StatusCode` as a response part changes the status
to that code when the current status is the default 200, and leaves the
status unchanged when the current status is anything else. -/
theorem statusCode_part_only_overrides_default (s : Nat) (p : PartsM) :
    (p.status = 200 → (statusIntoResponseParts s p).status = s) ∧
    (p.status ≠ 200 → (statusIntoResponseParts s p).status = p.status) := by
  constructor <;> intro h <;> simp [statusIntoResponseParts, h]

/-- Witness for C9: setting 404 on a default-status head takes effect;
setting 404 on a 301 head does not. -/
theorem statusCode_part_only_overrides_default_witness :
    (statusIntoResponseParts 404 PartsM.default).status = 404 ∧
    (statusIntoResponseParts 404 { PartsM.default with status := 301 }).status = 301 :=
  ⟨(statusCode_part_only_overrides_default 404 PartsM.default).1 rfl,
    (statusCode_part_only_overrides_default 404
      { PartsM.default with status := 301 }).2 (by decide)⟩

/-! ## Claim C10 -/

/-- Claim C10: every response leaving the Normalize service, for every
request method, request header set and inner response, carries the
`x-clacks-overhead: GNU Terry Pratchett` header. -/
theorem normalize_always_inserts_clacks_overhead
    (reqHeaders : HeaderMapM) (reqMethod : String) (res : PartsM × BodyM) :
    hdrLookup (normalizeCall reqHeaders reqMethod res).1.headers "x-clacks-overhead" =
      some "GNU Terry Pratchett" := by
  obtain ⟨parts, body⟩ := res
  simp only [normalizeCall]
  split <;> (try split) <;> exact hdrLookup_hdrInsert _ _ _

/-! ## Claim C4 -/

/-- Claim C4 (counterexample): for a wait of 1.5 seconds the code floors the
duration to whole seconds, so `Retry-After` carries `1`, while the claimed
ceiling of the wait in seconds is `2`. -/
theorem rateLimit_denial_retry_after_not_ceiling :
    hdrLookup (rateLimitErrorResponse 1500000000).headers "retry-after" = some "1" ∧
    Nat.repr ((1500000000 + (nsPerSec - 1)) / nsPerSec) = "2" ∧
    ("1" : String) ≠ "2" :=
  ⟨rfl, rfl, by decide⟩

/-- Claim C4 (amended): the denial response has status 429 and its
`Retry-After`, `RateLimit-Reset` and `X-RateLimit-Reset` headers all carry
`max(floor(w / 1 s), 1)` — the wait truncated to whole seconds, with a
minimum of 1 — and `RateLimit-Remaining` is `0`. -/
theorem rateLimit_denial_response_headers (w : Nat) :
    (rateLimitErrorResponse w).status = 429 ∧
    hdrLookup (rateLimitErrorResponse w).headers "retry-after" =
      some (Nat.repr (max (w / nsPerSec) 1)) ∧
    hdrLookup (rateLimitErrorResponse w).headers "ratelimit-reset" =
      some (Nat.repr (max (w / nsPerSec) 1)) ∧
    hdrLookup (rateLimitErrorResponse w).headers "x-ratelimit-reset" =
      some (Nat.repr (max (w / nsPerSec) 1)) ∧
    hdrLookup (rateLimitErrorResponse w).headers "ratelimit-remaining" = some "0" :=
  ⟨rfl, rfl, rfl, rfl, rfl⟩

/-! ## Claim C2 -/

/-- Claim C2: `Gcra::req` computes `next = prev − τ` saturating at 0; when
`now < next` it denies with wait exactly `next − now` and leaves the stored
value unchanged; otherwise it admits and the stored value becomes
`max(now, prev) + t` (stated under no `u64` overflow; the CAS retry loop is
modelled by its sequential effect). -/
theorem gcra_req_spec (prev now : Nat) (q : Quota) :
    (now < prev - q.tau →
      gcraReq prev q now = (prev, some (prev - q.tau - now))) ∧
    (¬ now < prev - q.tau → max now prev + q.t < U64 →
      gcraReq prev q now = (max now prev + q.t, none)) := by
  constructor
  · intro h
    simp [gcraReq, gcraDecide, h]
  · intro h hov
    simp [gcraReq, gcraDecide, h, Nat.mod_eq_of_lt hov]

/-- Witness for C2: with `prev = 100`, `τ = 30`, `t = 7`: a request at
`now = 50` is denied with wait `20` and the value stays `100`; a request at
`now = 80` is admitted and the value becomes `max(80, 100) + 7 = 107`. -/
theorem gcra_req_spec_witness :
    gcraReq 100 { tau := 30, t := 7 } 50 = (100, some 20) ∧
    gcraReq 100 { tau := 30, t := 7 } 80 = (107, none) :=
  ⟨(gcra_req_spec 100 50 { tau := 30, t := 7 }).1 (by decide),
    (gcra_req_spec 100 80 { tau := 30, t := 7 }).2 (by decide) (by norm_num [U64])⟩

/-! ## Claim C5 -/

/-- The data bytes contributed by a single output, plus the budget after the
step, never exceed the budget before the step. -/
theorem limitedStep_bound (r : Nat) (x : Except BodyErrorM FrameM) :
    dataBytesYielded [(limitedStep r x).2] + (limitedStep r x).1 ≤ r := by
  match x with
  | Except.error e => simp [limitedStep, dataBytesYielded]
  | Except.ok FrameM.trailers => simp [limitedStep, dataBytesYielded]
  | Except.ok (FrameM.data bs) =>
    by_cases hle : bs.length ≤ r
    · simp [limitedStep, dataBytesYielded, hle]
    · simp [limitedStep, dataBytesYielded, hle]

theorem limitedRun_bound (xs : List (Except BodyErrorM FrameM)) :
    ∀ r : Nat, dataBytesYielded (limitedRun r xs).2 + (limitedRun r xs).1 ≤ r := by
  induction xs with
  | nil => intro r; simp [limitedRun, dataBytesYielded]
  | cons x xs ih =>
    intro r
    have hstep := limitedStep_bound r x
    have htail := ih (limitedStep r x).1
    simp only [limitedRun]
    rcases hy : (limitedStep r x).2 with e | f
    · have : dataBytesYielded [(limitedStep r x).2] = 0 := by simp [hy, dataBytesYielded]
      simp only [dataBytesYielded]
      omega
    · cases f with
      | trailers =>
        have : dataBytesYielded [(limitedStep r x).2] = 0 := by simp [hy, dataBytesYielded]
        simp only [dataBytesYielded]
        omega
      | data bs =>
        have : dataBytesYielded [(limitedStep r x).2] = bs.length := by
          simp [hy, dataBytesYielded]
        simp only [dataBytesYielded]
        omega

/-- Claim C5: for a `Limited` body with remaining budget `r`, a data frame
of `n` bytes is yielded with budget `r − n` when `n ≤ r` and becomes a
`LengthLimitError` with budget clamped to 0 when `n > r`; trailers always
pass through with the budget unchanged; and over any sequence of polls the
data bytes yielded never exceed the initial budget. -/
theorem limited_body_budget (r : Nat) (x : Except BodyErrorM FrameM)
    (xs : List (Except BodyErrorM FrameM)) :
    (∀ bs, x = Except.ok (FrameM.data bs) → bs.length ≤ r →
      limitedStep r x = (r - bs.length, Except.ok (FrameM.data bs))) ∧
    (∀ bs, x = Except.ok (FrameM.data bs) → bs.length > r →
      limitedStep r x = (0, Except.error BodyErrorM.lengthLimitError)) ∧
    (x = Except.ok FrameM.trailers → limitedStep r x = (r, Except.ok FrameM.trailers)) ∧
    dataBytesYielded (limitedRun r xs).2 ≤ r := by
  refine ⟨?_, ?_, ?_, ?_⟩
  · intro bs hx hle
    simp [hx, limitedStep, hle]
  · intro bs hx hgt
    simp [hx, limitedStep, Nat.not_le.mpr hgt]
  · intro hx
    simp [hx, limitedStep]
  · have := limitedRun_bound xs r
    omega

/-- Witness for C5: with budget 5, a 3-byte frame passes leaving 2, a 6-byte
frame overflows and clamps to 0, trailers pass through; a concrete run of
frames `[3 bytes, trailers, 4 bytes]` yields only 3 data bytes (3 + 4 > 5). -/
theorem limited_body_budget_witness :
    limitedStep 5 (Except.ok (FrameM.data [10, 20, 30])) =
      (2, Except.ok (FrameM.data [10, 20, 30])) ∧
    limitedStep 5 (Except.ok (FrameM.data [1, 2, 3, 4, 5, 6])) =
      (0, Except.error BodyErrorM.lengthLimitError) ∧
    limitedStep 5 (Except.ok FrameM.trailers) = (5, Except.ok FrameM.trailers) ∧
    dataBytesYielded (limitedRun 5 [Except.ok (FrameM.data [10, 20, 30]),
      Except.ok FrameM.trailers, Except.ok (FrameM.data [7, 8, 9, 10])]).2 ≤ 5 :=
  ⟨(limited_body_budget 5 _ []).1 [10, 20, 30] rfl (by decide),
    (limited_body_budget 5 _ []).2.1 [1, 2, 3, 4, 5, 6] rfl (by decide),
    (limited_body_budget 5 _ []).2.2.1 rfl,
    (limited_body_budget 5 (Except.ok FrameM.trailers) [Except.ok (FrameM.data [10, 20, 30]),
      Except.ok FrameM.trailers, Except.ok (FrameM.data [7, 8, 9, 10])]).2.2.2⟩

/-! ## Claim C3 -/

/-- Claim C3 (counterexample): a quota is allowed a zero emission interval
(`Quota::new(Duration::ZERO, burst)`), and then every request is admitted:
with `t = 0` and burst `B = 1` the second same-instant request — the
`(B+1)`th, which the claim says is denied — is admitted. -/
theorem rate_limiter_burst_zero_interval_admits :
    rlAdmitted (Quota.new 0 1) 0 2 = true := by decide

theorem rlState_burst (t B now : Nat) (_ht : 1 ≤ t) (hov : now + (B + 2) * t < U64) :
    ∀ k, 1 ≤ k → k ≤ B → rlState (Quota.new t B) now k = some (now + (k + 1) * t) := by
  have htau : (Quota.new t B).tau = t * B := by
    have hle : t * B ≤ (B + 2) * t := by
      calc t * B = B * t := Nat.mul_comm t B
        _ ≤ (B + 2) * t := Nat.mul_le_mul_right t (by omega)
    exact Nat.mod_eq_of_lt (by omega)
  have htt : (Quota.new t B).t = t := rfl
  intro k
  induction k with
  | zero => omega
  | succ k ih =>
    intro _ hk
    match k, ih with
    | 0, _ =>
      have h2 : now + 2 * t < U64 := by
        have hle : 2 * t ≤ (B + 2) * t := Nat.mul_le_mul_right t (by omega)
        omega
      show (rlStep (rlState (Quota.new t B) now 0) (Quota.new t B) now).1 =
        some (now + (0 + 1 + 1) * t)
      simp only [rlState, rlStep, gcraFirst, htt]
      rw [Nat.mod_eq_of_lt (by omega)]
      congr 1
      ring
    | j + 1, ih =>
      have hst : rlState (Quota.new t B) now (j + 1) = some (now + (j + 2) * t) :=
        ih (by omega) (by omega)
      have hA : (j + 2) * t ≤ B * t := Nat.mul_le_mul_right t (by omega)
      have hBt : t * B = B * t := Nat.mul_comm t B
      have hnext : ¬ now < now + (j + 2) * t - (Quota.new t B).tau := by
        rw [htau, hBt]
        omega
      have hsplit : (j + 3) * t = (j + 2) * t + t := by ring
      have hup : now + (j + 3) * t < U64 := by
        have hle : (j + 3) * t ≤ (B + 2) * t := Nat.mul_le_mul_right t (by omega)
        omega
      have hmax : max now (now + (j + 2) * t) = now + (j + 2) * t := by omega
      have hdec : gcraDecide (now + (j + 2) * t) now (Quota.new t B) =
          Except.ok (now + (j + 2) * t + t) := by
        simp only [gcraDecide, htt]
        rw [if_neg hnext, hmax, Nat.mod_eq_of_lt (by omega)]
      have hfin : now + (j + 2) * t + t = now + (j + 1 + 1 + 1) * t := by ring
      show (rlStep (rlState (Quota.new t B) now (j + 1)) (Quota.new t B) now).1 =
        some (now + (j + 1 + 1 + 1) * t)
      rw [hst]
      simp [rlStep, gcraReq, hdec, hfin]

/-- Claim C3 (amended): for every quota with a positive emission interval
`t` and burst `B ≥ 1` (so `τ = t·B`), a same-instant request sequence from a
cold key admits exactly the first `B` requests and denies the `(B+1)`th
(stated below any `u64` overflow: `now + (B+2)·t < 2^64`). The first request
inserts `Gcra::first`; later ones go through `Gcra::req`. -/
theorem rate_limiter_burst_admits_exactly_B (t B now : Nat) (ht : 1 ≤ t) (hB : 1 ≤ B)
    (hov : now + (B + 2) * t < U64) :
    (∀ k, 1 ≤ k → k ≤ B → rlAdmitted (Quota.new t B) now k = true) ∧
    rlAdmitted (Quota.new t B) now (B + 1) = false := by
  have htau : (Quota.new t B).tau = t * B := by
    have hle : t * B ≤ (B + 2) * t := by
      calc t * B = B * t := Nat.mul_comm t B
        _ ≤ (B + 2) * t := Nat.mul_le_mul_right t (by omega)
    exact Nat.mod_eq_of_lt (by omega)
  have htt : (Quota.new t B).t = t := rfl
  constructor
  · intro k h1 hk
    match k, h1 with
    | 1, _ =>
      simp [rlAdmitted, rlState, rlStep]
    | j + 2, _ =>
      have hst : rlState (Quota.new t B) now (j + 1) = some (now + (j + 2) * t) :=
        rlState_burst t B now ht hov (j + 1) (by omega) (by omega)
      have hA : (j + 2) * t ≤ B * t := Nat.mul_le_mul_right t (by omega)
      have hBt : t * B = B * t := Nat.mul_comm t B
      have hnext : ¬ now < now + (j + 2) * t - (Quota.new t B).tau := by
        rw [htau, hBt]
        omega
      have hmax : max now (now + (j + 2) * t) = now + (j + 2) * t := by omega
      have hdec : gcraDecide (now + (j + 2) * t) now (Quota.new t B) =
          Except.ok ((now + (j + 2) * t + t) % U64) := by
        simp only [gcraDecide, htt]
        rw [if_neg hnext, hmax]
      have hred : j + 2 - 1 = j + 1 := by omega
      simp [rlAdmitted, hred, hst, rlStep, gcraReq, hdec]
  · have hst : rlState (Quota.new t B) now B = some (now + (B + 1) * t) :=
      rlState_burst t B now ht hov B hB (by omega)
    have hBt : (B + 1) * t = B * t + t := by ring
    have hnext : now < now + (B + 1) * t - (Quota.new t B).tau := by
      rw [htau, Nat.mul_comm t B]
      omega
    have hdec : gcraDecide (now + (B + 1) * t) now (Quota.new t B) =
        Except.error (now + (B + 1) * t - (Quota.new t B).tau - now) := by
      simp only [gcraDecide]
      rw [if_pos hnext]
    have hred : B + 1 - 1 = B := by omega
    simp [rlAdmitted, hred, hst, rlStep, gcraReq, hdec]

/-- Witness for C3 (amended): with `t = 10` ns, burst 3, at `now = 0`, the
first three same-instant requests are admitted and the fourth is denied. -/
theorem rate_limiter_burst_admits_exactly_B_witness :
    (rlAdmitted (Quota.new 10 3) 0 1 = true ∧
      rlAdmitted (Quota.new 10 3) 0 2 = true ∧
      rlAdmitted (Quota.new 10 3) 0 3 = true) ∧
    rlAdmitted (Quota.new 10 3) 0 4 = false :=
  have h := rate_limiter_burst_admits_exactly_B 10 3 0 (by decide) (by decide)
    (by norm_num [U64])
  ⟨⟨h.1 1 (by decide) (by decide), h.1 2 (by decide) (by decide),
    h.1 3 (by decide) (by decide)⟩, h.2⟩

/-! ## Claim C6 -/

/-- Claim C6 (counterexample): an `Empty` request body (known lower bound 0,
within the limit) reaches the inner service unchanged — it is not wrapped in
`Limited` — contradicting the claim that every non-rejected body is wrapped
in `Limited` with budget `M`. -/
theorem limit_req_body_empty_not_wrapped :
    limitReqBodyCall 5 true BodyM.empty = LimitOutcome.innerCalled BodyM.empty ∧
    BodyM.isLimitedB BodyM.empty = false :=
  ⟨rfl, rfl⟩

/-- Claim C6 (amended): with limit `M` and `reject = true`, a request whose
body's original lower size-hint bound exceeds `M` is rejected with a
`LengthLimitError` (rendered as a 413) before the inner service runs and
before any body bytes are read. Otherwise the body is passed to the inner
service wrapped in `Limited` with budget `M`, except that: an `Empty` body
passes unchanged; an existing `Limited` body keeps its wrapper with budget
`min(remaining, M)`; `Arbitrary` and `Deferred` bodies make the layer return
a `BodyError` without calling the inner service. -/
theorem limit_req_body_spec (limit : Nat) (reject : Bool) (body : BodyM) :
    (reject = true → body.originalSizeHint.lower > limit →
      limitReqBodyCall limit reject body = LimitOutcome.rejected) ∧
    bodyErrorStatus BodyErrorM.lengthLimitError = 413 ∧
    (¬(reject = true ∧ body.originalSizeHint.lower > limit) →
      (body = BodyM.empty →
        limitReqBodyCall limit reject body = LimitOutcome.innerCalled BodyM.empty) ∧
      (∀ r inner, body = BodyM.limited r inner →
        limitReqBodyCall limit reject body =
          LimitOutcome.innerCalled (BodyM.limited (min r limit) inner)) ∧
      (∀ bs, body = BodyM.full bs →
        limitReqBodyCall limit reject body =
          LimitOutcome.innerCalled (BodyM.limited limit (BodyM.full bs))) ∧
      (∀ lo up, body = BodyM.streaming lo up →
        limitReqBodyCall limit reject body =
          LimitOutcome.innerCalled (BodyM.limited limit (BodyM.streaming lo up))) ∧
      (body = BodyM.arbitrary →
        limitReqBodyCall limit reject body =
          LimitOutcome.bodyError BodyErrorM.arbitraryBodyPolled) ∧
      (∀ f, body = BodyM.deferred f →
        limitReqBodyCall limit reject body =
          LimitOutcome.bodyError BodyErrorM.deferredNotConverted)) := by
  refine ⟨?_, rfl, ?_⟩
  · intro h1 h2
    simp [limitReqBodyCall, h1, h2]
  · intro hn
    have hcond : (reject && decide (body.originalSizeHint.lower > limit)) = false := by
      cases reject <;> simp_all
    refine ⟨?_, ?_, ?_, ?_, ?_, ?_⟩
    · intro he
      subst he
      simp [limitReqBodyCall, hcond, BodyM.limit]
    · intro r inner he
      subst he
      simp [limitReqBodyCall, hcond, BodyM.limit]
    · intro bs he
      subst he
      simp [limitReqBodyCall, hcond, BodyM.limit]
    · intro lo up he
      subst he
      simp [limitReqBodyCall, hcond, BodyM.limit]
    · intro he
      subst he
      simp [limitReqBodyCall, hcond, BodyM.limit]
    · intro f he
      subst he
      simp [limitReqBodyCall, hcond, BodyM.limit]

/-- Witness for C6 (amended): a 5-byte `Full` body with limit 3 and
`reject = true` is rejected early; a 1-byte `Full` body with limit 3 reaches
the inner service wrapped in `Limited` with budget 3. -/
theorem limit_req_body_spec_witness :
    limitReqBodyCall 3 true (BodyM.full [1, 2, 3, 4, 5]) = LimitOutcome.rejected ∧
    limitReqBodyCall 3 true (BodyM.full [9]) =
      LimitOutcome.innerCalled (BodyM.limited 3 (BodyM.full [9])) :=
  ⟨(limit_req_body_spec 3 true (BodyM.full [1, 2, 3, 4, 5])).1 rfl (by decide),
    ((limit_req_body_spec 3 true (BodyM.full [9])).2.2 (by decide)).2.2.1 [9] rfl⟩

/-! ## Claim C7 -/

/-- Claim C7 (counterexample): a CONNECT request whose response is a 2xx
carrying a `Content-Length: 5` header and a 5-byte body leaves Normalize
with an empty body but with the `Content-Length` header still present —
the claim says a CONNECT 2xx response carries no such header. -/
theorem normalize_connect_2xx_keeps_header :
    hdrLookup (normalizeCall [] "CONNECT"
      ({ PartsM.default with headers := [("content-length", "5")] },
        BodyM.full [1, 2, 3, 4, 5])).1.headers "content-length" = some "5" ∧
    (normalizeCall [] "CONNECT"
      ({ PartsM.default with headers := [("content-length", "5")] },
        BodyM.full [1, 2, 3, 4, 5])).2 = BodyM.empty :=
  ⟨rfl, rfl⟩

/-- Claim C7 (amended): for every HEAD request the response body is replaced
by the empty body only after `Content-Length` has been set from the
response's exact size hint (when exactly known and not already set), so a
10-byte body yields an empty body with `Content-Length: 10`; for every
CONNECT request whose response is 2xx and has a `Content-Length` or
`Transfer-Encoding` header or a nonzero lower size-hint bound, the body is
replaced by the empty body, but the headers are left as they were (plus the
unconditional clacks header) — in particular `Content-Length` and
`Transfer-Encoding` are not removed, and no `Content-Length` is
auto-inserted. -/
theorem normalize_head_and_connect (reqHeaders : HeaderMapM) (reqMethod : String)
    (parts : PartsM) (body : BodyM) :
    (effectiveMethod reqHeaders reqMethod = "HEAD" →
      (normalizeCall reqHeaders reqMethod (parts, body)).2 = BodyM.empty ∧
      (∀ n, hdrContains parts.headers "content-length" = false →
        body.sizeHint.exact = some n →
        hdrLookup (normalizeCall reqHeaders reqMethod (parts, body)).1.headers
          "content-length" = some (Nat.repr n))) ∧
    (effectiveMethod reqHeaders reqMethod = "CONNECT" →
      isSuccess parts.status = true →
      (hdrContains parts.headers "content-length" ||
        hdrContains parts.headers "transfer-encoding" ||
        decide (body.sizeHint.lower ≠ 0)) = true →
      (normalizeCall reqHeaders reqMethod (parts, body)).2 = BodyM.empty ∧
      (normalizeCall reqHeaders reqMethod (parts, body)).1.headers =
        hdrInsert parts.headers "x-clacks-overhead" "GNU Terry Pratchett") := by
  constructor
  · intro hm
    have hmm : miniMethodOf (effectiveMethod reqHeaders reqMethod) = MiniMethod.head := by
      rw [hm]
      rfl
    constructor
    · simp [normalizeCall, hmm]
    · intro n hcl hex
      simp only [normalizeCall, hmm]
      simp only [show (MiniMethod.head = MiniMethod.connect) = False by simp,
        Bool.false_and]
      simp only [decide_False, Bool.false_and, if_false, reduceIte]
      rw [hdrLookup_hdrInsert_ne _ _ _ _ (by decide)]
      simp [setContentLength, hcl, hex, hdrLookup_hdrInsert]
  · intro hm hsucc hcond
    have hmm : miniMethodOf (effectiveMethod reqHeaders reqMethod) = MiniMethod.connect := by
      rw [hm]
      rfl
    have hcondP : (hdrContains parts.headers "content-length" = true ∨
        hdrContains parts.headers "transfer-encoding" = true) ∨
        ¬body.sizeHint.lower = 0 := by
      simpa using hcond
    constructor
    · simp [normalizeCall, hmm, hsucc, hcondP]
    · simp [normalizeCall, hmm, hsucc, hcondP]

/-- Witness for C7 (amended): a HEAD request against a 10-byte response body
yields an empty body with `Content-Length: 10`; a CONNECT request against a
2xx response with a `Transfer-Encoding` header yields an empty body. -/
theorem normalize_head_and_connect_witness :
    ((normalizeCall [] "HEAD"
      (PartsM.default, BodyM.full [0, 1, 2, 3, 4, 5, 6, 7, 8, 9])).2 = BodyM.empty ∧
    hdrLookup (normalizeCall [] "HEAD"
      (PartsM.default, BodyM.full [0, 1, 2, 3, 4, 5, 6, 7, 8, 9])).1.headers
      "content-length" = some (Nat.repr 10)) ∧
    (normalizeCall [] "CONNECT"
      ({ PartsM.default with headers := [("transfer-encoding", "chunked")] },
        BodyM.empty)).2 = BodyM.empty :=
  have h1 := (normalize_head_and_connect [] "HEAD" PartsM.default
    (BodyM.full [0, 1, 2, 3, 4, 5, 6, 7, 8, 9])).1 rfl
  have h2 := (normalize_head_and_connect [] "CONNECT"
    { PartsM.default with headers := [("transfer-encoding", "chunked")] }
    BodyM.empty).2 rfl rfl (by decide)
  ⟨⟨h1.1, h1.2 10 rfl rfl⟩, h2.1⟩

/-! ## Claim C8 -/

/-- The claim's phrasing of the encoding choice: the first `&`-separated
query pair whose key is a configured field and whose value is `json` or
`cbor`; the configured default when there is none or no query at all. -/
def chooseEncodingSpec (fields : List String) (dflt : Encoding) (query : Option String) :
    Encoding :=
  match query with
  | none => dflt
  | some q =>
    ((splitChar (Char.ofNat 38) q).filterMap
      (fun p => (splitOnce p (Char.ofNat 61)).bind
        (fun kv => if kv.1 ∈ fields then encodingOfValue kv.2 else none))).headD dflt

theorem scanPairs_eq_headD (fields : List String) (dflt : Encoding) (ps : List String) :
    scanPairs fields dflt ps =
      (ps.filterMap (fun p => (splitOnce p (Char.ofNat 61)).bind
        (fun kv => if kv.1 ∈ fields then encodingOfValue kv.2 else none))).headD dflt := by
  induction ps with
  | nil => rfl
  | cons p rest ih =>
    cases hsp : splitOnce p (Char.ofNat 61) with
    | none => simp [scanPairs, hsp, ih]
    | some kv =>
      by_cases hf : kv.1 ∈ fields
      · cases hv : encodingOfValue kv.2 with
        | none => simp [scanPairs, hsp, hf, hv, ih]
        | some e => simp [scanPairs, hsp, hf, hv]
      · simp [scanPairs, hsp, hf, ih]

theorem chooseEncoding_eq_spec (fields : List String) (dflt : Encoding)
    (query : Option String) :
    chooseEncoding fields dflt query = chooseEncodingSpec fields dflt query := by
  cases query with
  | none => rfl
  | some q => exact scanPairs_eq_headD fields dflt (splitChar (Char.ofNat 38) q)

/-- Claim C8: a `Deferred`-bodied response is encoded with the encoding
selected by the first configured query field whose value is `json` or
`cbor`, defaulting when absent; a non-successful replacement's entire head
(status, version, headers, extensions) replaces the original, a successful
replacement merges only its headers and extensions onto the original head
(status and version unchanged); responses with any other body variant pass
through unmodified. -/
theorem deferred_encoding_layer_spec (fields : List String) (dflt : Encoding)
    (query : Option String) (parts : PartsM) :
    (∀ b, BodyM.isDeferredB b = false →
      deferredEncodingCall fields dflt query (parts, b) = (parts, b)) ∧
    (∀ encode, isSuccess (encode (chooseEncodingSpec fields dflt query)).1.status = false →
      deferredEncodingCall fields dflt query (parts, BodyM.deferred encode) =
        encode (chooseEncodingSpec fields dflt query)) ∧
    (∀ encode, isSuccess (encode (chooseEncodingSpec fields dflt query)).1.status = true →
      deferredEncodingCall fields dflt query (parts, BodyM.deferred encode) =
        ({ parts with
            headers := hdrExtend parts.headers
              (encode (chooseEncodingSpec fields dflt query)).1.headers,
            extensions := extExtend parts.extensions
              (encode (chooseEncodingSpec fields dflt query)).1.extensions },
          (encode (chooseEncodingSpec fields dflt query)).2)) := by
  refine ⟨?_, ?_, ?_⟩
  · intro b hb
    cases b <;> simp_all [deferredEncodingCall, BodyM.isDeferredB]
  · intro encode h
    simp [deferredEncodingCall, chooseEncoding_eq_spec, h]
  · intro encode h
    simp [deferredEncodingCall, chooseEncoding_eq_spec, h]

/-- Witness for C8: with default JSON and field name `encoding`, the query
`x=1&encoding=cbor` selects CBOR; the encoded (successful) replacement body
is installed while the original head is kept; a `Full` body passes through
unmodified. -/
theorem deferred_encoding_layer_spec_witness :
    deferredEncodingCall ["encoding"] Encoding.json (some "x=1&encoding=cbor")
      (PartsM.default, BodyM.deferred (fun e =>
        (PartsM.default, BodyM.full [if e = Encoding.cbor then 1 else 0]))) =
      (PartsM.default, BodyM.full [1]) ∧
    deferredEncodingCall ["encoding"] Encoding.json (some "x=1&encoding=cbor")
      (PartsM.default, BodyM.full [7]) = (PartsM.default, BodyM.full [7]) :=
  ⟨(deferred_encoding_layer_spec ["encoding"] Encoding.json
      (some "x=1&encoding=cbor") PartsM.default).2.2 _ rfl,
    (deferred_encoding_layer_spec ["encoding"] Encoding.json
      (some "x=1&encoding=cbor") PartsM.default).1 (BodyM.full [7]) rfl⟩

/-! ## Claim C1 -/

theorem selectTrie_explicit {σ : Type} (r : RouterM σ) (method : String)
    (h : isExplicitMethod method = true) : (selectTrie r method).2 = false := by
  simp only [isExplicitMethod, List.mem_cons, decide_eq_true_eq] at h
  rcases h with h | h | h | h | h | h | h | h | h | h <;> first
    | (subst h; rfl)
    | simp at h

theorem selectTrie_not_explicit {σ : Type} (r : RouterM σ) (method : String)
    (h : isExplicitMethod method = false) : selectTrie r method = (r.r_any, true) := by
  simp only [selectTrie]
  split <;> simp_all [isExplicitMethod]

/-- Claim C1: the router lookup selects the trie of the request's method
(ANY when the method is not one of the nine explicit ones); a hit whose id
has a route entry dispatches to that route; a miss in an explicit method's
trie retries in ANY; a total miss, or a matched id without a route entry,
resolves to the fallback entry under id 0 when present and otherwise the
service call returns the NotFound error (a 404). The lookup path is the
request path with trailing slashes trimmed when configured. -/
theorem router_match_and_fallback (σ : Type) (r : RouterM σ) (method path p : String)
    (hp : p = if r.trim_trailing_slash then trimTrailingSlashes path else path) :
    ((method = "GET" → selectTrie r method = (r.r_get, false)) ∧
      (method = "POST" → selectTrie r method = (r.r_post, false)) ∧
      (method = "PUT" → selectTrie r method = (r.r_put, false)) ∧
      (method = "DELETE" → selectTrie r method = (r.r_delete, false)) ∧
      (method = "PATCH" → selectTrie r method = (r.r_patch, false)) ∧
      (method = "HEAD" → selectTrie r method = (r.r_head, false)) ∧
      (method = "CONNECT" → selectTrie r method = (r.r_connect, false)) ∧
      (method = "OPTIONS" → selectTrie r method = (r.r_options, false)) ∧
      (method = "TRACE" → selectTrie r method = (r.r_trace, false)) ∧
      (isExplicitMethod method = false → selectTrie r method = (r.r_any, true))) ∧
    (∀ id rt, (selectTrie r method).1 p = some id → r.routes id = some rt →
      routerCall r method path = RouterCallResult.route rt) ∧
    (∀ id rt, isExplicitMethod method = true → (selectTrie r method).1 p = none →
      r.r_any p = some id → r.routes id = some rt →
      routerCall r method path = RouterCallResult.route rt) ∧
    (∀ id, (selectTrie r method).1 p = some id → r.routes id = none →
      routerCall r method path = fallbackResult r) ∧
    (∀ id, isExplicitMethod method = true → (selectTrie r method).1 p = none →
      r.r_any p = some id → r.routes id = none →
      routerCall r method path = fallbackResult r) ∧
    ((selectTrie r method).1 p = none → r.r_any p = none →
      routerCall r method path = fallbackResult r) ∧
    (∀ fb, r.routes 0 = some fb → fallbackResult r = RouterCallResult.route fb) ∧
    (r.routes 0 = none → fallbackResult r = RouterCallResult.notFound) := by
  refine ⟨⟨?_, ?_, ?_, ?_, ?_, ?_, ?_, ?_, ?_, ?_⟩, ?_, ?_, ?_, ?_, ?_, ?_, ?_⟩
  · intro h; subst h; rfl
  · intro h; subst h; rfl
  · intro h; subst h; rfl
  · intro h; subst h; rfl
  · intro h; subst h; rfl
  · intro h; subst h; rfl
  · intro h; subst h; rfl
  · intro h; subst h; rfl
  · intro h; subst h; rfl
  · exact selectTrie_not_explicit r method
  · intro id rt h1 h2
    subst hp
    simp [routerCall, match_route, h1, h2]
  · intro id rt hexp hmiss hany hrt
    have h2 := selectTrie_explicit r method hexp
    subst hp
    simp [routerCall, match_route, hmiss, h2, hany, hrt]
  · intro id h1 h2
    subst hp
    cases hfb : r.routes 0 <;>
      simp [routerCall, match_route, fallbackResult, h1, h2, hfb]
  · intro id hexp hmiss hany hrt
    have h2 := selectTrie_explicit r method hexp
    subst hp
    cases hfb : r.routes 0 <;>
      simp [routerCall, match_route, fallbackResult, hmiss, h2, hany, hrt, hfb]
  · intro hmiss hany
    subst hp
    rcases hexp : (selectTrie r method).2 with _ | _ <;>
      cases hfb : r.routes 0 <;>
        simp [routerCall, match_route, fallbackResult, hmiss, hexp, hany, hfb]
  · intro fb hfb
    simp [fallbackResult, hfb]
  · intro hfb
    simp [fallbackResult, hfb]

/-- A small concrete router used to exercise the router theorem: one GET
route, one ANY route, and a fallback entry. Services are numbers. -/
def routerExample : RouterM Nat where
  r_get := fun p => if p = "/users" then some 1 else none
  r_post := fun _ => none
  r_put := fun _ => none
  r_delete := fun _ => none
  r_patch := fun _ => none
  r_head := fun _ => none
  r_connect := fun _ => none
  r_options := fun _ => none
  r_trace := fun _ => none
  r_any := fun p => if p = "/any" then some 2 else none
  routes := fun id =>
    if id = 1 then some { path := "/users", service := 10 }
    else if id = 2 then some { path := "/any", service := 20 }
    else if id = 0 then some { path := "", service := 99 }
    else none
  trim_trailing_slash := true

/-- Witness for C1: on the example router, `GET /users/` (trailing slash
trimmed) hits the GET route; `POST /any` falls through to the ANY trie; and
`GET /nope` resolves to the fallback route under id 0. -/
theorem router_match_and_fallback_witness :
    routerCall routerExample "GET" "/users/" =
      RouterCallResult.route { path := "/users", service := 10 } ∧
    routerCall routerExample "POST" "/any" =
      RouterCallResult.route { path := "/any", service := 20 } ∧
    routerCall routerExample "GET" "/nope" = fallbackResult routerExample ∧
    fallbackResult routerExample = RouterCallResult.route { path := "", service := 99 } :=
  have h1 := router_match_and_fallback Nat routerExample "GET" "/users/" "/users" (by decide)
  have h2 := router_match_and_fallback Nat routerExample "POST" "/any" "/any" (by decide)
  have h3 := router_match_and_fallback Nat routerExample "GET" "/nope" "/nope" (by decide)
  ⟨h1.2.1 1 { path := "/users", service := 10 } (by decide) (by decide),
    h2.2.2.1 2 { path := "/any", service := 20 } (by decide) (by decide) (by decide) (by decide),
    h3.2.2.2.2.2.1 (by decide) (by decide),
    h3.2.2.2.2.2.2.1 { path := "", service := 99 } (by decide)⟩

end Ftl2
